import Mathlib

/-!
Verification of the timeline-retrieval core of `athenaeum`
(`src/athenaeum/retriever.py`) together with the breadcrumb annotator the
specification describes.

The embedding mirrors `retriever.py`:
* `searchYear` embeds `re.search` for the compiled pattern
  `\[.*?(?:Year|Date|Years|circa Year)\s+(\d+)` with `re.IGNORECASE`
  (leftmost match, lazy `.*?` that cannot cross a newline, alternation
  tried left to right with backtracking, `\s+` then a greedy digit
  capture).  `\s` and `\d` are modelled over their ASCII sets, which is
  exhaustive for the byte-level texts the retriever scans.
* `Chunk` models a docstore node: `content` is `node.get_content()` and
  `metadata` is the node's optional metadata mapping (`None` maps to
  `Option.none`, which `(node.metadata or {})` also treats as empty).
* `retrieve_timeline` is the pure scan/filter/sort/truncate pipeline of
  lines 193-228; `retrieve_timeline_io` adds the `_load_index_storage`
  stage (lines 17-37) whose `FileNotFoundError`s become `Except.error`.
* Python `list.sort(key=lambda x: x["year"])` is a stable sort; it is
  embedded as `List.mergeSort`, which is stable with the same tie rule.
-/

/-- ASCII characters matched by Python's `\s`. -/
def isPySpace (c : Char) : Bool :=
  c = ' ' || c = '\t' || c = '\n' || c = '\r' || c = '\x0b' || c = '\x0c'

/-- Case-insensitive literal match (`re.IGNORECASE`): consume `lit` from the
front of `cs`, returning the rest on success. -/
def matchLit : List Char → List Char → Option (List Char)
  | [], cs => some cs
  | _ :: _, [] => none
  | k :: ks, c :: cs => if k.toLower = c.toLower then matchLit ks cs else none

/-- Embeds `\s+(\d+)`: at least one whitespace character, then a greedy digit capture.
Backtracking inside `\s+` can never help because a character is never both
whitespace and a digit, so the maximal-run reading is exact. -/
def wsDigits (cs : List Char) : Option (List Char) :=
  match cs.takeWhile isPySpace with
  | [] => none
  | _ :: _ =>
    match (cs.dropWhile isPySpace).takeWhile Char.isDigit with
    | [] => none
    | d :: ds => some (d :: ds)

/-- The alternation `(?:Year|Date|Years|circa Year)` followed by `\s+(\d+)`,
alternatives tried in source order, each with its continuation (regex
backtracking re-enters the group when the continuation fails). -/
def keywordTail (cs : List Char) : Option (List Char) :=
  ((matchLit "Year".data cs).bind wsDigits) <|>
  ((matchLit "Date".data cs).bind wsDigits) <|>
  ((matchLit "Years".data cs).bind wsDigits) <|>
  ((matchLit "circa Year".data cs).bind wsDigits)

/-- Lazy `.*?` before the alternation: try the keyword group first, then let
`.` consume one more character (anything but a newline) and retry. -/
def scanDot : List Char → Option (List Char)
  | [] => none
  | c :: cs =>
    match keywordTail (c :: cs) with
    | some ds => some ds
    | none => if c = '\n' then none else scanDot cs

/-- Value of a digit run, as Python's `int` on `match.group(1)`. -/
def digitsVal (ds : List Char) : Nat :=
  ds.foldl (fun n c => 10 * n + (c.toNat - 48)) 0

/-- Embeds `year_pattern.search(text)` followed by `int(match.group(1))`:
the match attempt starts at each position in turn (leftmost wins), and the
pattern's `\[` anchors each attempt at a literal `[`. -/
def searchYearAux : List Char → Option Nat
  | [] => none
  | c :: cs =>
    if c = '[' then
      match scanDot cs with
      | some ds => some (digitsVal ds)
      | none => searchYearAux cs
    else searchYearAux cs

def searchYear (s : String) : Option Nat :=
  searchYearAux s.data

/-- A stored docstore node: `content` is `node.get_content()`, `metadata`
the optional metadata mapping. -/
structure Chunk where
  content : String
  metadata : Option (List (String × String))
deriving DecidableEq, Repr

/-- Embeds `(node.metadata or {}).get(key, dflt)`. -/
def metaGet (m : Option (List (String × String))) (key dflt : String) : String :=
  match m with
  | none => dflt
  | some kvs =>
    match kvs.lookup key with
    | some v => v
    | none => dflt

/-- One element of the returned list.  The Python dict also nests
`metadata = {"path": path, "year": year}`; both nested fields are
determined by `path` and `year` here, so the record keeps one copy. -/
structure TimelineEntry where
  content : String
  path : String
  year : Int
deriving DecidableEq, Repr

/-- The entry built at lines 215-222 for a chunk whose captured year is `y`. -/
def mkEntry (c : Chunk) (y : Nat) : TimelineEntry :=
  { content := c.content
    path := metaGet c.metadata "source_path" "unknown"
    year := (y : Int) }

/-- Embeds `start_year is not None and year < start_year` (line 209). -/
def belowStart (year : Int) : Option Int → Bool
  | some s => decide (year < s)
  | none => false

/-- Embeds `end_year is not None and year > end_year` (line 211). -/
def aboveEnd (year : Int) : Option Int → Bool
  | some e => decide (year > e)
  | none => false

/-- The loop body of lines 200-222 for one node: extract the first year, skip
the chunk when either bound rejects it, otherwise build its entry. -/
def chunkEntry (start_year end_year : Option Int) (c : Chunk) : Option TimelineEntry :=
  match searchYear c.content with
  | none => none
  | some y =>
    if belowStart (y : Int) start_year then none
    else if aboveEnd (y : Int) end_year then none
    else some (mkEntry c y)

/-- The list `matching_entries` after the scan loop, in docstore scan order. -/
def matchingEntries (chunks : List Chunk) (start_year end_year : Option Int) :
    List TimelineEntry :=
  chunks.filterMap (chunkEntry start_year end_year)

/-- Comparison used by `matching_entries.sort(key=lambda x: x["year"])`. -/
def yearLE (a b : TimelineEntry) : Bool :=
  decide (a.year ≤ b.year)

/-- Python's stable sort on the `year` key (line 225). -/
def sortEntries (l : List TimelineEntry) : List TimelineEntry :=
  l.mergeSort yearLE

/-- Embeds `retrieve_timeline` on an already-loaded chunk list (lines 193-228):
scan, filter, stable sort by year, then truncate to `top_k`. -/
def retrieve_timeline (chunks : List Chunk) (start_year end_year : Option Int)
    (top_k : Nat) : List TimelineEntry :=
  (sortEntries (matchingEntries chunks start_year end_year)).take top_k

/-- Default of the `top_k` parameter in the Python signature (line 156). -/
def retrieve_timeline_default_top_k : Nat := 10

/-- State visible to `_load_index_storage` and the docstore scan: whether the
index directory and the `faiss.index` file inside it exist on disk, and the
docstore mapping (`index.docstore.docs`, insertion-ordered ids to nodes). -/
structure IndexStore where
  dirExists : Bool
  faissExists : Bool
  docs : List (String × Chunk)
deriving DecidableEq, Repr

/-- Embeds `_load_index_storage` (lines 17-37): raises `FileNotFoundError` when the
directory or the FAISS file is missing, otherwise yields the stored docstore. -/
def loadIndexStorage (st : IndexStore) : Except String (List (String × Chunk)) :=
  if st.dirExists = false then
    .error "Index directory not found"
  else if st.faissExists = false then
    .error "FAISS index file not found"
  else
    .ok st.docs

/-- Embeds `retrieve_timeline` including the storage-loading stage; a raised
`FileNotFoundError` propagates to the caller as `Except.error`. -/
def retrieve_timeline_io (st : IndexStore) (start_year end_year : Option Int)
    (top_k : Nat) : Except String (List TimelineEntry) :=
  match loadIndexStorage st with
  | .error msg => .error msg
  | .ok docs => .ok (retrieve_timeline (docs.map Prod.snd) start_year end_year top_k)

/-- The scan loop with the store state threaded through every iteration: the
body only reads `node.get_content()` and `node.metadata` and appends to the
local `matching_entries`, so the store component is passed along unchanged. -/
def timelineFoldStep (start_year end_year : Option Int)
    (acc : IndexStore × List TimelineEntry) (node : Chunk) :
    IndexStore × List TimelineEntry :=
  match chunkEntry start_year end_year node with
  | some entry => (acc.1, acc.2 ++ [entry])
  | none => (acc.1, acc.2)

/-- Embeds `retrieve_timeline` written as a state transformer over the store, to make
the frame property (the store is only read) a provable statement. -/
def retrieve_timeline_state (st : IndexStore) (start_year end_year : Option Int)
    (top_k : Nat) : IndexStore × Except String (List TimelineEntry) :=
  match loadIndexStorage st with
  | .error msg => (st, .error msg)
  | .ok docs =>
    let scanned := (docs.map Prod.snd).foldl (timelineFoldStep start_year end_year) (st, [])
    (scanned.1, .ok ((sortEntries scanned.2).take top_k))

/-!
## Breadcrumb annotator

Modelled from the spec: the repository ships only the reading side of the
breadcrumb pipeline (the timeline extractor above); the writing side — the
heading parser (spec 4.1), the temporal normalizer (spec 4.2), the breadcrumb
injector (spec 4.3) and the `annotate` entry point (spec 6) — is not present
under `src/`.  The definitions below follow the spec's wording for those
components.
-/

/-- A document handed to `annotate`: raw text plus an opaque metadata
mapping. -/
structure Document where
  text : String
  metadata : List (String × String)
deriving DecidableEq, Repr

/-- Split a character stream into lines at `\n` (inverse of `joinNl`). -/
def splitNl : List Char → List (List Char)
  | [] => [[]]
  | c :: cs =>
    if c = '\n' then [] :: splitNl cs
    else
      match splitNl cs with
      | [] => [[c]]
      | l :: ls => (c :: l) :: ls

/-- Join lines with `\n` separators. -/
def joinNl : List (List Char) → List Char
  | [] => []
  | [l] => l
  | l :: ls => l ++ '\n' :: joinNl ls

/-- Trim leading and trailing whitespace from a character list. -/
def trimChars (cs : List Char) : List Char :=
  ((cs.dropWhile isPySpace).reverse.dropWhile isPySpace).reverse

/-- Modelled from the spec (4.1): a line is a heading iff it matches
`^(#{1,6})\s+(.+)$` — one to six leading `#`, at least one whitespace
character, and a nonempty remainder; the title is the trimmed remainder.
Seven or more `#`, or no whitespace after the hashes, is ordinary content. -/
def parseHeading (line : List Char) : Option (Nat × List Char) :=
  let hashes := line.takeWhile (· = '#')
  let n := hashes.length
  if 1 ≤ n ∧ n ≤ 6 then
    match line.drop n with
    | [] => none
    | c :: rest =>
      if isPySpace c ∧ rest ≠ [] then some (n, trimChars (c :: rest))
      else none
  else none

/-- Embeds `^\d+(-\d+)*$`: dash-separated nonempty digit groups. -/
def isDigitGroups (cs : List Char) : Bool :=
  (cs.splitOn '-').all fun g => !g.isEmpty && g.all Char.isDigit

/-- Trailing punctuation stripped before the numeric test (spec 4.2 step 3). -/
def isTrailPunct (c : Char) : Bool :=
  c = '.' || c = ',' || c = ';' || c = ':' || c = '!' || c = '?' || c = ' '

/-- Modelled from the spec (4.2): classify a heading title as a year range,
an approximate year, a date, a bare year, or non-temporal, returning
`(isTemporal, normalizedText)`. -/
def normalizeTemporal (title : List Char) : Bool × List Char :=
  if title.any (fun c => c = '–' || c = '—') then
    (true, "Years ".data ++ title)
  else
    match title with
    | 'c' :: '.' :: rest => (true, "circa Year ".data ++ trimChars rest)
    | _ =>
      let cleaned := (title.reverse.dropWhile isTrailPunct).reverse
      if isDigitGroups cleaned then
        if cleaned.any (· = '-') then (true, "Date ".data ++ cleaned)
        else (true, "Year ".data ++ cleaned)
      else (false, title)

/-- Pop every stack entry whose level is `≥ lvl`, innermost first
(spec 4.3 step 2); the stack is kept outermost-first. -/
def popStack (stack : List (Nat × List Char)) (lvl : Nat) : List (Nat × List Char) :=
  ((stack.reverse.dropWhile fun p => decide (lvl ≤ p.1)).reverse)

/-- Modelled from the spec (4.3): process one line, returning the new
hierarchy stack and the lines emitted for it. -/
def injectLine (stack : List (Nat × List Char)) (line : List Char) :
    List (Nat × List Char) × List (List Char) :=
  match parseHeading line with
  | none => (stack, [line])
  | some (lvl, title) =>
    let norm := normalizeTemporal title
    let stack' := popStack stack lvl ++ [(lvl, norm.2)]
    if stack'.length > 1 then
      (stack', [line,
                '[' :: (List.intercalate " > ".data (stack'.map Prod.snd)) ++ [']'],
                []])
    else if norm.1 then
      (stack', [line, '[' :: norm.2 ++ [']'], []])
    else
      (stack', [line])

/-- Fold the injector over all lines, accumulating emitted lines. -/
def injectLines (stack : List (Nat × List Char)) :
    List (List Char) → List (List Char)
  | [] => []
  | line :: rest =>
    let step := injectLine stack line
    step.2 ++ injectLines step.1 rest

/-- Modelled from the spec (4.3): the breadcrumb injector over a whole
document text — split into lines, inject, rejoin with newlines. -/
def injectBreadcrumbs (text : String) : String :=
  String.mk (joinNl (injectLines [] (splitNl text.data)))

/-- Modelled from the spec (6): `annotate(documents) -> documents`, rewriting
each document's text and preserving its metadata. -/
def annotate (docs : List Document) : List Document :=
  docs.map fun d => { d with text := injectBreadcrumbs d.text }

/-!
## Concrete chunks used in the spec's examples
-/

def chunk5990 : Chunk := ⟨"[Timeline > Year 5990]", none⟩
def chunk6050 : Chunk := ⟨"[Timeline > Year 6050]", none⟩
def chunk6500 : Chunk := ⟨"[Timeline > Year 6500]", none⟩

/-- A chunk whose first breadcrumb year (5990) is out of range while a later
breadcrumb in the same text (6050) is in range. -/
def chunkTwoYears : Chunk :=
  ⟨"[Third Era Timeline > Year 5990]\nSome events.\n[Third Era Timeline > Year 6050]", none⟩

/-!
## Helper lemmas
-/

theorem belowStart_iff {y : Int} {s : Option Int} :
    belowStart y s = true ↔ ∃ sv, s = some sv ∧ y < sv := by
  cases s <;> simp [belowStart]

theorem aboveEnd_iff {y : Int} {e : Option Int} :
    aboveEnd y e = true ↔ ∃ ev, e = some ev ∧ y > ev := by
  cases e <;> simp [aboveEnd]

theorem yearLE_trans (a b c : TimelineEntry) :
    yearLE a b → yearLE b c → yearLE a c := by
  simp only [yearLE, decide_eq_true_eq]
  exact Int.le_trans

theorem yearLE_total (a b : TimelineEntry) : yearLE a b || yearLE b a := by
  simp only [yearLE, Bool.or_eq_true, decide_eq_true_eq]
  exact Int.le_total a.year b.year

theorem sortEntries_perm (l : List TimelineEntry) : List.Perm (sortEntries l) l :=
  List.mergeSort_perm l yearLE

theorem sortEntries_pairwise (l : List TimelineEntry) :
    (sortEntries l).Pairwise (fun a b => yearLE a b = true) :=
  List.sorted_mergeSort yearLE_trans yearLE_total l

/-- Stability of the sort, in filtered form: the entries of any fixed year
class appear in the sorted output in exactly their pre-sort order. -/
theorem sortEntries_filter_eq (l : List TimelineEntry) (y : Int) :
    (sortEntries l).filter (fun a => a.year == y)
      = l.filter (fun a => a.year == y) := by
  set p : TimelineEntry → Bool := fun a => a.year == y with hp
  have hpair : (l.filter p).Pairwise (fun a b => yearLE a b = true) := by
    apply List.pairwise_of_forall_mem_list
    intro a ha b hb
    have ha' : a.year = y := by
      have := (List.mem_filter.mp ha).2
      simpa [hp] using this
    have hb' : b.year = y := by
      have := (List.mem_filter.mp hb).2
      simpa [hp] using this
    simp [yearLE, ha', hb']
  have hsub : List.Sublist (l.filter p) (sortEntries l) :=
    List.sublist_mergeSort yearLE_trans yearLE_total hpair (List.filter_sublist l)
  have hsub2 : List.Sublist ((l.filter p).filter p) ((sortEntries l).filter p) :=
    List.Sublist.filter p hsub
  have hself : (l.filter p).filter p = l.filter p := by
    apply List.filter_eq_self.mpr
    intro a ha
    exact (List.mem_filter.mp ha).2
  rw [hself] at hsub2
  have hlen : (l.filter p).length = ((sortEntries l).filter p).length :=
    (List.Perm.filter p (sortEntries_perm l)).length_eq.symm
  exact (hsub2.eq_of_length hlen).symm

/-- The loop threads the store component unchanged and accumulates exactly
the `filterMap` of the loop body. -/
theorem foldl_timelineFoldStep (s e : Option Int) (nodes : List Chunk)
    (st : IndexStore) (acc : List TimelineEntry) :
    nodes.foldl (timelineFoldStep s e) (st, acc)
      = (st, acc ++ nodes.filterMap (chunkEntry s e)) := by
  induction nodes generalizing acc with
  | nil => simp
  | cons n t ih =>
    simp only [List.foldl_cons, List.filterMap_cons, timelineFoldStep]
    cases h : chunkEntry s e n with
    | none => rw [ih]
    | some entry => rw [ih]; simp

theorem splitNl_ne_nil (cs : List Char) : splitNl cs ≠ [] := by
  cases cs with
  | nil => simp [splitNl]
  | cons c cs =>
    simp only [splitNl]
    split
    · simp
    · cases h : splitNl cs <;> simp

theorem joinNl_splitNl (cs : List Char) : joinNl (splitNl cs) = cs := by
  induction cs with
  | nil => rfl
  | cons c cs ih =>
    by_cases h : c = '\n'
    · subst h
      obtain ⟨l, ls, hl⟩ := List.exists_cons_of_ne_nil (splitNl_ne_nil cs)
      simp only [splitNl, if_pos rfl]
      rw [hl]
      rw [hl] at ih
      simpa [joinNl] using ih
    · obtain ⟨l, ls, hl⟩ := List.exists_cons_of_ne_nil (splitNl_ne_nil cs)
      simp only [splitNl, if_neg h, hl]
      rw [hl] at ih
      cases ls with
      | nil => simpa [joinNl] using ih
      | cons y ys => simpa [joinNl] using ih

/-- When no line is a heading, the injector copies every line and the stack
stays empty. -/
theorem injectLines_no_heading (lines : List (List Char))
    (h : ∀ line ∈ lines, parseHeading line = none) :
    injectLines [] lines = lines := by
  induction lines with
  | nil => rfl
  | cons line rest ih =>
    have hline : parseHeading line = none := h line (by simp)
    simp only [injectLines, injectLine, hline]
    exact congrArg (line :: ·) (ih fun l hl => h l (by simp [hl]))

/-- Given the captured year, `chunkEntry` rejects the chunk exactly when one
of the two bound tests of lines 209-212 fires. -/
theorem chunkEntry_eq_none {c : Chunk} {y : Nat} (s e : Option Int)
    (hy : searchYear c.content = some y) :
    chunkEntry s e c = none ↔
      (belowStart (y : Int) s = true ∨ aboveEnd (y : Int) e = true) := by
  simp only [chunkEntry, hy]
  by_cases hb : belowStart (y : Int) s = true
  · simp [hb]
  · by_cases he : aboveEnd (y : Int) e = true
    · simp [hb, he]
    · simp [hb, he]

/-- The map `chunkEntry` produces an entry exactly when a year is captured and both
bound tests pass, and then the entry is `mkEntry`. -/
theorem chunkEntry_eq_some {s e : Option Int} {c : Chunk} {entry : TimelineEntry} :
    chunkEntry s e c = some entry ↔
      ∃ y : Nat, searchYear c.content = some y
        ∧ belowStart (y : Int) s = false
        ∧ aboveEnd (y : Int) e = false
        ∧ entry = mkEntry c y := by
  unfold chunkEntry
  cases hy : searchYear c.content with
  | none => simp
  | some y =>
    by_cases hb : belowStart (y : Int) s = true
    · simp [hb]
    · by_cases ha : aboveEnd (y : Int) e = true
      · simp [hb, ha]
      · simp only [Bool.not_eq_true] at hb ha
        simp [hb, ha]
        exact eq_comm

-- Sanity checks: concrete evaluations of the embedded scanner and annotator.
example : searchYear "[Timeline > Year 6050]" = some 6050 := by decide
example : searchYear "[Timeline > Years 1066]" = some 1066 := by decide
example : searchYear "[Era > circa Year 1300]" = some 1300 := by decide
example : searchYear "[Era > Date 6050-3-14]" = some 6050 := by decide
example : searchYear "no breadcrumb here" = none := by decide
example : searchYear "[Installation > Windows]" = none := by decide
example : searchYear "[A > Year 5990]\nx\n[A > Year 6050]" = some 5990 := by decide
example :
    injectBreadcrumbs "# User Guide\n## Installation\n### Windows\nFollow these steps..."
    = "# User Guide\n## Installation\n[User Guide > Installation]\n\n### Windows\n[User Guide > Installation > Windows]\n\nFollow these steps..." := by
  decide
example : normalizeTemporal "6050".data = (true, "Year 6050".data) := by decide
example : normalizeTemporal "6050-3-14".data = (true, "Date 6050-3-14".data) := by decide
example : normalizeTemporal "c. 1300".data = (true, "circa Year 1300".data) := by decide
example : normalizeTemporal "Installation".data = (false, "Installation".data) := by decide
example : annotate [⟨"hello\nworld", [("source_path", "a.md")]⟩]
    = [⟨"hello\nworld", [("source_path", "a.md")]⟩] := by decide

/-!
## Claims
-/

/-- C1: `retrieve_timeline` applies an inclusive year-range filter — a chunk
whose extracted year is `y` is skipped iff `startYear` is given and
`y < startYear`, or `endYear` is given and `y > endYear`, an absent bound
being unbounded on that side — and on chunks whose breadcrumbs carry the
years 5990, 6050 and 6500, the query `startYear = 6000, endYear = 6500`
returns exactly the 6050 and 6500 entries. -/
theorem timeline_C1 :
    (∀ (c : Chunk) (y : Nat) (s e : Option Int),
        searchYear c.content = some y →
        (chunkEntry s e c = none ↔
          ((∃ sv, s = some sv ∧ (y : Int) < sv) ∨ (∃ ev, e = some ev ∧ (y : Int) > ev))))
    ∧ retrieve_timeline [chunk5990, chunk6050, chunk6500] (some 6000) (some 6500) 10
        = [mkEntry chunk6050 6050, mkEntry chunk6500 6500] := by
  constructor
  · intro c y s e hy
    rw [chunkEntry_eq_none s e hy, belowStart_iff, aboveEnd_iff]
  · have hm : matchingEntries [chunk5990, chunk6050, chunk6500] (some 6000) (some 6500)
        = [mkEntry chunk6050 6050, mkEntry chunk6500 6500] := by decide
    have hs : sortEntries [mkEntry chunk6050 6050, mkEntry chunk6500 6500]
        = [mkEntry chunk6050 6050, mkEntry chunk6500 6500] :=
      List.mergeSort_of_sorted (by decide)
    simp only [retrieve_timeline, hm, hs]
    rfl

/-- C1 witness: the range-filter characterization applied to the concrete
5990 chunk with bounds 6000 and 6500. -/
theorem timeline_C1_witness :
    searchYear chunk5990.content = some 5990
    ∧ (chunkEntry (some 6000) (some 6500) chunk5990 = none ↔
        ((∃ sv, some (6000 : Int) = some sv ∧ ((5990 : Nat) : Int) < sv)
          ∨ (∃ ev, some (6500 : Int) = some ev ∧ ((5990 : Nat) : Int) > ev))) :=
  ⟨by decide, timeline_C1.1 chunk5990 5990 (some 6000) (some 6500) (by decide)⟩

/-- C2: the entries returned by `retrieve_timeline` are sorted in ascending
year order, and the sort is stable — for every year class, the entries of
that year appear in the sorted list in exactly their order in the scan over
the chunk store (`matchingEntries`). -/
theorem timeline_C2 (chunks : List Chunk) (s e : Option Int) (k : Nat) :
    (retrieve_timeline chunks s e k).Pairwise (fun a b => a.year ≤ b.year)
    ∧ ∀ y : Int,
        (sortEntries (matchingEntries chunks s e)).filter (fun a => a.year == y)
          = (matchingEntries chunks s e).filter (fun a => a.year == y) := by
  constructor
  · have h := sortEntries_pairwise (matchingEntries chunks s e)
    have h2 : (sortEntries (matchingEntries chunks s e)).Pairwise
        (fun a b => a.year ≤ b.year) := by
      refine h.imp ?_
      intro a b hab
      simpa [yearLE] using hab
    exact List.Pairwise.sublist (List.take_sublist k _) h2
  · intro y
    exact sortEntries_filter_eq _ y

/-- C2 witness: sortedness and stability at a concrete three-chunk store. -/
theorem timeline_C2_witness :
    (retrieve_timeline [chunk6500, chunk5990, chunk6050] none none 10).Pairwise
      (fun a b => a.year ≤ b.year)
    ∧ ∀ y : Int,
        (sortEntries (matchingEntries [chunk6500, chunk5990, chunk6050] none none)).filter
            (fun a => a.year == y)
          = (matchingEntries [chunk6500, chunk5990, chunk6050] none none).filter
            (fun a => a.year == y) :=
  timeline_C2 [chunk6500, chunk5990, chunk6050] none none 10

/-- C3: truncation to `top_k` happens only after filtering and sorting (so the
result never exceeds `top_k` entries), the default limit is 10, and for every
store with a non-empty set of matching chunks, `startYear = None`,
`endYear = None`, `limit = 1` returns exactly one entry, which matches some
chunk and has the minimal year across the whole corpus. -/
theorem timeline_C3 :
    retrieve_timeline_default_top_k = 10
    ∧ (∀ (chunks : List Chunk) (s e : Option Int) (k : Nat),
        (retrieve_timeline chunks s e k).length ≤ k)
    ∧ (∀ chunks : List Chunk, matchingEntries chunks none none ≠ [] →
        ∃ a, retrieve_timeline chunks none none 1 = [a]
          ∧ a ∈ matchingEntries chunks none none
          ∧ ∀ b ∈ matchingEntries chunks none none, a.year ≤ b.year) := by
  refine ⟨rfl, ?_, ?_⟩
  · intro chunks s e k
    simp only [retrieve_timeline]
    exact List.length_take_le k _
  · intro chunks hne
    have hperm := sortEntries_perm (matchingEntries chunks none none)
    have hsne : sortEntries (matchingEntries chunks none none) ≠ [] := by
      intro h0
      have hlen := hperm.length_eq
      rw [h0] at hlen
      exact hne (List.eq_nil_of_length_eq_zero hlen.symm)
    obtain ⟨a, t, hat⟩ := List.exists_cons_of_ne_nil hsne
    refine ⟨a, ?_, ?_, ?_⟩
    · simp [retrieve_timeline, hat]
    · exact hperm.mem_iff.mp (by simp [hat])
    · intro b hb
      have hbs : b ∈ sortEntries (matchingEntries chunks none none) :=
        hperm.mem_iff.mpr hb
      rw [hat, List.mem_cons] at hbs
      rcases hbs with rfl | hbt
      · exact le_refl _
      · have hp := sortEntries_pairwise (matchingEntries chunks none none)
        rw [hat] at hp
        have := (List.pairwise_cons.mp hp).1 b hbt
        simpa [yearLE] using this

/-- C3 witness: the limit-1 boundary applied to a concrete two-chunk store. -/
theorem timeline_C3_witness :
    matchingEntries [chunk6500, chunk5990] none none ≠ []
    ∧ ∃ a, retrieve_timeline [chunk6500, chunk5990] none none 1 = [a]
        ∧ a ∈ matchingEntries [chunk6500, chunk5990] none none
        ∧ ∀ b ∈ matchingEntries [chunk6500, chunk5990] none none, a.year ≤ b.year :=
  ⟨by decide, timeline_C3.2.2 [chunk6500, chunk5990] (by decide)⟩

/-- C4 counterexample: with the index directory (and hence the FAISS file)
missing, `retrieve_timeline` propagates `FileNotFoundError`
(`Except.error`) instead of returning an empty result. -/
theorem timeline_C4_counterexample :
    retrieve_timeline_io ⟨false, false, []⟩ none none 10
        = .error "Index directory not found"
    ∧ ¬ ∃ l, retrieve_timeline_io ⟨false, false, []⟩ none none 10 = .ok l := by
  constructor
  · rfl
  · rintro ⟨l, hl⟩
    rw [show retrieve_timeline_io ⟨false, false, []⟩ none none 10
          = .error "Index directory not found" from rfl] at hl
    exact Except.noConfusion hl

/-- C4 (amended): for every missing chunk store — the index directory, or the
`faiss.index` file inside it, does not exist — timeline retrieval raises
`FileNotFoundError` (propagated to the caller as an error), rather than
returning an empty result. -/
theorem timeline_C4_amended (st : IndexStore) (s e : Option Int) (k : Nat)
    (h : st.dirExists = false ∨ st.faissExists = false) :
    ∃ msg, retrieve_timeline_io st s e k = .error msg := by
  by_cases hd : st.dirExists = false
  · exact ⟨"Index directory not found",
      by simp [retrieve_timeline_io, loadIndexStorage, hd]⟩
  · rcases h with h | h
    · exact absurd h hd
    · exact ⟨"FAISS index file not found",
        by simp [retrieve_timeline_io, loadIndexStorage, hd, h]⟩

/-- C4 witness: the amended claim at a store whose directory exists but whose
FAISS file is missing. -/
theorem timeline_C4_witness :
    ((true : Bool) = false ∨ (false : Bool) = false)
    ∧ ∃ msg, retrieve_timeline_io ⟨true, false, []⟩ none none 10 = .error msg :=
  ⟨Or.inr rfl, timeline_C4_amended ⟨true, false, []⟩ none none 10 (Or.inr rfl)⟩

/-- C5: a chunk store that loads successfully but holds zero chunks yields an
empty result (no error) for every choice of bounds and limit; in particular
`retrieveTimeline([], 0, 9999, 10) == []`. -/
theorem timeline_C5 :
    (∀ (st : IndexStore) (s e : Option Int) (k : Nat),
        loadIndexStorage st = .ok [] → retrieve_timeline_io st s e k = .ok [])
    ∧ (∀ (s e : Option Int) (k : Nat), retrieve_timeline [] s e k = [])
    ∧ retrieve_timeline [] (some 0) (some 9999) 10 = [] := by
  have hbase : ∀ (s e : Option Int) (k : Nat), retrieve_timeline [] s e k = [] := by
    intro s e k
    simp [retrieve_timeline, matchingEntries, sortEntries]
  refine ⟨?_, hbase, hbase _ _ _⟩
  intro st s e k h
  simp [retrieve_timeline_io, h, hbase]

/-- C5 witness: the empty-store case at a concrete loadable store. -/
theorem timeline_C5_witness :
    loadIndexStorage ⟨true, true, []⟩ = .ok []
    ∧ retrieve_timeline_io ⟨true, true, []⟩ (some 0) (some 9999) 10 = .ok [] :=
  ⟨rfl, timeline_C5.1 ⟨true, true, []⟩ (some 0) (some 9999) 10 rfl⟩

/-- C6: every returned entry carries the matched chunk's full text as its
content, the parsed year as its integer year, and a source path taken from
the chunk's metadata, defaulting to `"unknown"` when the metadata mapping is
absent or lacks the `"source_path"` key. -/
theorem timeline_C6 :
    (∀ (chunks : List Chunk) (s e : Option Int) (k : Nat) entry,
        entry ∈ retrieve_timeline chunks s e k →
        ∃ c ∈ chunks, ∃ y : Nat,
          searchYear c.content = some y
          ∧ entry = mkEntry c y
          ∧ entry.content = c.content
          ∧ entry.year = (y : Int)
          ∧ entry.path = metaGet c.metadata "source_path" "unknown")
    ∧ (∀ (c : Chunk) (y : Nat),
        (c.metadata = none
          ∨ ∀ kvs, c.metadata = some kvs → kvs.lookup "source_path" = none) →
        (mkEntry c y).path = "unknown") := by
  constructor
  · intro chunks s e k entry hmem
    simp only [retrieve_timeline] at hmem
    have h1 : entry ∈ sortEntries (matchingEntries chunks s e) :=
      List.mem_of_mem_take hmem
    have h2 : entry ∈ matchingEntries chunks s e :=
      (sortEntries_perm _).mem_iff.mp h1
    obtain ⟨c, hc, hce⟩ := List.mem_filterMap.mp h2
    obtain ⟨y, hy, _, _, hentry⟩ := chunkEntry_eq_some.mp hce
    subst hentry
    exact ⟨c, hc, y, hy, rfl, rfl, rfl, rfl⟩
  · intro c y h
    rcases h with h | h
    · simp [mkEntry, metaGet, h]
    · cases hm : c.metadata with
      | none => simp [mkEntry, metaGet, hm]
      | some kvs => simp [mkEntry, metaGet, hm, h kvs hm]

/-- C6 witness: the entry-shape property at a concrete singleton store. -/
theorem timeline_C6_witness :
    (mkEntry chunk6050 6050 ∈ retrieve_timeline [chunk6050] none none 10)
    ∧ ∃ c ∈ [chunk6050], ∃ y : Nat,
        searchYear c.content = some y
        ∧ mkEntry chunk6050 6050 = mkEntry c y
        ∧ (mkEntry chunk6050 6050).content = c.content
        ∧ (mkEntry chunk6050 6050).year = (y : Int)
        ∧ (mkEntry chunk6050 6050).path = metaGet c.metadata "source_path" "unknown" := by
  have hm : matchingEntries [chunk6050] none none = [mkEntry chunk6050 6050] := by
    decide
  have hmem : mkEntry chunk6050 6050 ∈ retrieve_timeline [chunk6050] none none 10 := by
    simp [retrieve_timeline, hm, sortEntries]
  exact ⟨hmem, timeline_C6.1 [chunk6050] none none 10 (mkEntry chunk6050 6050) hmem⟩

/-- C7: for every document whose text contains no heading lines,
`annotate([D]) == [D]` — the annotation pass is the identity transform on
such documents, leaving text and metadata unchanged. -/
theorem annotate_C7 (D : Document)
    (h : ∀ line ∈ splitNl D.text.data, parseHeading line = none) :
    annotate [D] = [D] := by
  have htext : injectBreadcrumbs D.text = D.text := by
    unfold injectBreadcrumbs
    rw [injectLines_no_heading _ h, joinNl_splitNl]
  cases D with
  | mk t m => simp [annotate, htext]

/-- C7 witness: the identity transform at a concrete heading-free document. -/
theorem annotate_C7_witness :
    (∀ line ∈ splitNl ("hello\nworld" : String).data, parseHeading line = none)
    ∧ annotate [⟨"hello\nworld", [("source_path", "a.md")]⟩]
        = [⟨"hello\nworld", [("source_path", "a.md")]⟩] :=
  ⟨by decide, annotate_C7 ⟨"hello\nworld", [("source_path", "a.md")]⟩ (by decide)⟩

/-- C8: `retrieve_timeline` never mutates the chunk store it reads — with the
store threaded through every loop iteration, the store after the call equals
the store before it, the produced value agrees with the direct reading, and
every returned entry is a freshly constructed `mkEntry` of a stored chunk. -/
theorem timeline_C8 (st : IndexStore) (s e : Option Int) (k : Nat) :
    (retrieve_timeline_state st s e k).1 = st
    ∧ (retrieve_timeline_state st s e k).2 = retrieve_timeline_io st s e k
    ∧ ∀ l, retrieve_timeline_io st s e k = .ok l →
        ∀ entry ∈ l, ∃ c ∈ (st.docs.map Prod.snd), ∃ y : Nat, entry = mkEntry c y := by
  refine ⟨?_, ?_, ?_⟩
  · unfold retrieve_timeline_state
    cases h : loadIndexStorage st with
    | error msg => rfl
    | ok docs => simp [foldl_timelineFoldStep]
  · unfold retrieve_timeline_state retrieve_timeline_io
    cases h : loadIndexStorage st with
    | error msg => rfl
    | ok docs => simp [foldl_timelineFoldStep, retrieve_timeline, matchingEntries]
  · intro l hl entry hentry
    unfold retrieve_timeline_io at hl
    cases h : loadIndexStorage st with
    | error msg => rw [h] at hl; exact absurd hl (by simp)
    | ok docs =>
      rw [h] at hl
      have hdocs : docs = st.docs := by
        unfold loadIndexStorage at h
        by_cases hd : st.dirExists = false
        · rw [if_pos hd] at h; exact absurd h (by simp)
        · rw [if_neg hd] at h
          by_cases hf : st.faissExists = false
          · rw [if_pos hf] at h; exact absurd h (by simp)
          · rw [if_neg hf] at h; exact (Except.ok.inj h).symm
      obtain rfl : retrieve_timeline (docs.map Prod.snd) s e k = l := Except.ok.inj hl
      subst hdocs
      simp only [retrieve_timeline] at hentry
      have h1 : entry ∈ sortEntries (matchingEntries (st.docs.map Prod.snd) s e) :=
        List.mem_of_mem_take hentry
      have h2 : entry ∈ matchingEntries (st.docs.map Prod.snd) s e :=
        (sortEntries_perm _).mem_iff.mp h1
      obtain ⟨c, hc, hce⟩ := List.mem_filterMap.mp h2
      obtain ⟨y, _, _, _, hentry'⟩ := chunkEntry_eq_some.mp hce
      exact ⟨c, hc, y, hentry'⟩

/-- C8 witness: the frame property at a concrete one-chunk store. -/
theorem timeline_C8_witness :
    (retrieve_timeline_state ⟨true, true, [("n1", chunk6050)]⟩ none none 10).1
        = ⟨true, true, [("n1", chunk6050)]⟩
    ∧ (retrieve_timeline_state ⟨true, true, [("n1", chunk6050)]⟩ none none 10).2
        = retrieve_timeline_io ⟨true, true, [("n1", chunk6050)]⟩ none none 10 :=
  ⟨(timeline_C8 ⟨true, true, [("n1", chunk6050)]⟩ none none 10).1,
   (timeline_C8 ⟨true, true, [("n1", chunk6050)]⟩ none none 10).2.1⟩

/-- C9: a chunk is classified by the first occurrence of the breadcrumb-year
pattern only — if the first captured year is outside the requested range the
chunk contributes no entry, even when a later breadcrumb in the same text
carries an in-range year; the two-breadcrumb chunk (first year 5990, later
year 6050) yields nothing for the range 6000-6500. -/
theorem timeline_C9 :
    (∀ (c : Chunk) (y : Nat) (s e : Option Int) (k : Nat),
        searchYear c.content = some y →
        (belowStart (y : Int) s = true ∨ aboveEnd (y : Int) e = true) →
        retrieve_timeline [c] s e k = [])
    ∧ searchYear chunkTwoYears.content = some 5990
    ∧ retrieve_timeline [chunkTwoYears] (some 6000) (some 6500) 10 = [] := by
  have hgen : ∀ (c : Chunk) (y : Nat) (s e : Option Int) (k : Nat),
      searchYear c.content = some y →
      (belowStart (y : Int) s = true ∨ aboveEnd (y : Int) e = true) →
      retrieve_timeline [c] s e k = [] := by
    intro c y s e k hy hskip
    have hnone : chunkEntry s e c = none := (chunkEntry_eq_none s e hy).mpr hskip
    simp [retrieve_timeline, matchingEntries, hnone, sortEntries]
  refine ⟨hgen, by decide, ?_⟩
  exact hgen chunkTwoYears 5990 (some 6000) (some 6500) 10 (by decide) (Or.inl (by decide))

/-- C9 witness: the first-match rule applied to the concrete two-year chunk. -/
theorem timeline_C9_witness :
    searchYear chunkTwoYears.content = some 5990
    ∧ (belowStart ((5990 : Nat) : Int) (some 6000) = true
        ∨ aboveEnd ((5990 : Nat) : Int) (some 6500) = true)
    ∧ retrieve_timeline [chunkTwoYears] (some 6000) (some 6500) 5 = [] :=
  ⟨by decide, Or.inl (by decide),
   timeline_C9.1 chunkTwoYears 5990 (some 6000) (some 6500) 5 (by decide)
     (Or.inl (by decide))⟩

/-- C10: whenever both bounds are given with `startYear > endYear`, no year
satisfies both inclusive tests, so `retrieve_timeline` returns the empty
list for every chunk store and limit. -/
theorem timeline_C10 (chunks : List Chunk) (k : Nat) (s e : Int) (h : e < s) :
    retrieve_timeline chunks (some s) (some e) k = [] := by
  have hm : matchingEntries chunks (some s) (some e) = [] := by
    rw [matchingEntries, List.filterMap_eq_nil_iff]
    intro c _
    unfold chunkEntry
    cases hy : searchYear c.content with
    | none => rfl
    | some y =>
      simp only [belowStart, aboveEnd]
      by_cases hb : (y : Int) < s
      · simp [hb]
      · have hgt : (y : Int) > e := by omega
        simp [hb, hgt]
  simp [retrieve_timeline, hm, sortEntries]

/-- C10 witness: inverted bounds at a concrete store. -/
theorem timeline_C10_witness :
    ((1 : Int) < 2)
    ∧ retrieve_timeline [chunk5990, chunk6050] (some 2) (some 1) 5 = [] :=
  ⟨by decide, timeline_C10 [chunk5990, chunk6050] 5 2 1 (by decide)⟩
